import Mathlib

/-!
Shallow embedding of the reselling-store server (`src/server.js`).

JavaScript numbers reaching the claim-relevant code paths are either actual
numeric values or `NaN` (produced by `Number(...)` on a truthy non-numeric
value); integral values suffice for every claim, so a number is modelled as
`JNum`: `nan` or `num (n : Int)`.  The arithmetic and comparison operators
below follow JavaScript semantics: `NaN` propagates through `+ - *` and
through `Math.max` / `Math.min`, and every ordering comparison involving
`NaN` is `false`.

The persistent JSON store `{ products, orders }` is the `Db` structure;
handlers are pure functions `Db → Db × Response` (the `writeDb` call is the
returned `Db`, request-time randomness — `crypto.randomUUID()` — and clock
reads are passed as explicit arguments).  Cosmetic product fields that no
handler logic ever reads back (`description`, `category`, `brand`, `size`,
`condition`) are omitted from the embedding.
-/

namespace RStore

inductive JNum where
  | nan : JNum
  | num : Int → JNum
deriving DecidableEq, Repr

/-- JavaScript `+` on numbers: `NaN` propagates. -/
def jadd : JNum → JNum → JNum
  | .num a, .num b => .num (a + b)
  | _, _ => .nan

/-- JavaScript `-` on numbers: `NaN` propagates. -/
def jsub : JNum → JNum → JNum
  | .num a, .num b => .num (a - b)
  | _, _ => .nan

/-- JavaScript `*` on numbers: `NaN` propagates. -/
def jmul : JNum → JNum → JNum
  | .num a, .num b => .num (a * b)
  | _, _ => .nan

/-- JavaScript `Math.max`: `NaN` if any argument is `NaN`. -/
def jmax : JNum → JNum → JNum
  | .num a, .num b => .num (max a b)
  | _, _ => .nan

/-- JavaScript `Math.min`: `NaN` if any argument is `NaN`. -/
def jmin : JNum → JNum → JNum
  | .num a, .num b => .num (min a b)
  | _, _ => .nan

/-- JavaScript `<=` on numbers: any comparison with `NaN` is `false`. -/
def jle : JNum → JNum → Bool
  | .num a, .num b => a ≤ b
  | _, _ => false

/-- JavaScript `>` on numbers: any comparison with `NaN` is `false`. -/
def jgt : JNum → JNum → Bool
  | .num a, .num b => b < a
  | _, _ => false

structure Product where
  id : String
  name : String
  priceCents : Int
  imageUrl : String
  inventory : JNum
  active : Bool
  createdAt : String
  updatedAt : String
deriving DecidableEq, Repr

structure OrderItem where
  productId : String
  name : String
  priceCents : Int
  qty : JNum
deriving DecidableEq, Repr

structure Order where
  id : String
  status : String
  createdAt : String
  paidAt : Option String
  items : List OrderItem
  subtotalCents : JNum
  customerEmail : String
  customerName : String
  customerPhone : String
  shipping : Option String
  stripeSessionId : String
deriving DecidableEq, Repr

/-- The JSON document at `DB_PATH`: `{ products: [...], orders: [...] }`. -/
structure Db where
  products : List Product
  orders : List Order
deriving DecidableEq, Repr

/-- The `initial` store built by `readDb` on any read/parse failure. -/
def emptyDb : Db := { products := [], orders := [] }

/--
`readDb` from `src/server.js` lines 109-118.  The argument is the outcome of
`fsp.readFile` + `JSON.parse`: `some db` on success, `none` on any failure
(missing file, unreadable file, corrupt JSON — the bare `catch` swallows
them all).  The result pairs the returned store with the list of stores
persisted via `writeDb` during the call.
-/
def readDb : Option Db → Db × List Db
  | some db => (db, [])
  | none => (emptyDb, [emptyDb])

/-- Replace the first element satisfying `p` (the object JavaScript
`Array.prototype.find` returns, mutated in place). -/
def updateFirst (p : α → Bool) (g : α → α) : List α → List α
  | [] => []
  | x :: xs => if p x then g x :: xs else x :: updateFirst p g xs

/-- `event.data.object` fields the webhook handler reads. -/
structure StripeEvent where
  type : String
  orderId : Option String
  sessionId : String
  email : Option String
  custName : Option String
  phone : Option String
  shipping : Option String
deriving DecidableEq, Repr

inductive WebhookResp where
  | noSecret : WebhookResp
  | ok : WebhookResp
  | err : String → WebhookResp
deriving DecidableEq, Repr

/-- HTTP status of each webhook response. -/
def webhookStatus : WebhookResp → Nat
  | .noSecret => 200
  | .ok => 200
  | .err _ => 400

/-- The field updates applied to a pending order on confirmation
(`src/server.js` lines 69-75). -/
def markPaid (ev : StripeEvent) (now : String) (o : Order) : Order :=
  { o with
    status := "paid"
    paidAt := some now
    stripeSessionId := ev.sessionId
    customerEmail := ev.email.getD ""
    customerName := ev.custName.getD ""
    customerPhone := ev.phone.getD ""
    shipping := ev.shipping }

/-- One iteration of the inventory loop (`src/server.js` lines 77-83):
find the first product with the item's id and set
`inventory = Math.max(0, Number(inventory) - Number(qty))`. -/
def decrementFor (item : OrderItem) (ps : List Product) : List Product :=
  updateFirst (fun p => p.id = item.productId)
    (fun p => { p with inventory := jmax (.num 0) (jsub p.inventory item.qty) }) ps

/-- The whole `for (const item of order.items)` loop. -/
def applyDecrements (items : List OrderItem) (ps : List Product) : List Product :=
  items.foldl (fun acc it => decrementFor it acc) ps

/--
The body of the webhook handler after signature verification
(`src/server.js` lines 60-88): on a `checkout.session.completed` event with
a truthy `metadata.orderId` naming a not-yet-`paid` order, mark the order
paid and decrement inventories; otherwise leave the store untouched.  The
Boolean records whether the mutating branch (the `writeDb` call) ran.
-/
def webhookApply (ev : StripeEvent) (now : String) (db : Db) : Db × Bool :=
  if ev.type = "checkout.session.completed" then
    match ev.orderId with
    | some oid =>
      if oid ≠ "" then
        match db.orders.find? (fun o => o.id = oid) with
        | some o =>
          if o.status ≠ "paid" then
            ({ products := applyDecrements o.items db.products
               orders := updateFirst (fun o2 => o2.id = oid) (markPaid ev now) db.orders },
             true)
          else (db, false)
        | none => (db, false)
      else (db, false)
    | none => (db, false)
  else (db, false)

/--
The full `POST /webhook` handler (`src/server.js` lines 51-95).  `sigOk`
models whether `stripe.webhooks.constructEvent` accepts the signature (it
throws otherwise, reaching the `catch` that answers 400).
-/
def webhook (secret : String) (sigOk : Bool) (ev : StripeEvent) (now : String) (db : Db) :
    Db × WebhookResp :=
  if secret = "" then (db, .noSecret)
  else if sigOk = false then (db, .err "Webhook Error")
  else ((webhookApply ev now db).1, .ok)

/--
Classification of the client-supplied `qty` field of a cart line by how
`Number(x.qty || 1)` behaves on it: `missing` covers absent and falsy values
(`undefined`, `null`, `false`, `""`, `0`, `NaN` — the `|| 1` turns them into
`1`), `numv n` a truthy value that converts to the number `n`, and
`nonNumeric` a truthy value whose conversion is `NaN` (e.g. the string
`"abc"` or a plain object).
-/
inductive QtyField where
  | missing : QtyField
  | numv : Int → QtyField
  | nonNumeric : QtyField
deriving DecidableEq, Repr

/-- `Number(x.qty || 1)`.  A truthy value converting to `0` (such as the
string `"0"`) is folded into `numv 0`; the clamp below sends both it and the
falsy-`0` case to `1`, exactly as in JavaScript. -/
def qtyToNum : QtyField → JNum
  | .missing => .num 1
  | .numv n => if n = 0 then .num 0 else .num n
  | .nonNumeric => .nan

/-- `Math.max(1, Math.min(99, Number(x.qty || 1)))`
(`src/server.js` line 314). -/
def resolveQty (q : QtyField) : JNum :=
  jmax (.num 1) (jmin (.num 99) (qtyToNum q))

/-- A client cart entry.  `id` is the value of `String(x.id || "")`;
`price` and `extra` stand for client-supplied price and any other extra
fields — the handler never reads them. -/
structure CartLine where
  id : String
  qty : QtyField
  price : JNum
  extra : String
deriving DecidableEq, Repr

/-- The `items` mapping of the checkout handler (lines 312-315). -/
structure RItem where
  productId : String
  qty : JNum
deriving DecidableEq, Repr

def toRItem (x : CartLine) : RItem :=
  { productId := x.id, qty := resolveQty x.qty }

/-- A Stripe `line_items` entry as built on lines 328-335. -/
structure LineItem where
  quantity : JNum
  unitAmount : Int
  name : String
deriving DecidableEq, Repr

inductive CkErr where
  | invalidCart : CkErr
  | notAvailable : String → CkErr
  | soldOut : String → CkErr
  | insufficient : String → JNum → CkErr
deriving DecidableEq, Repr

inductive CkOut where
  | err : CkErr → CkOut
  | ok : String → List LineItem → CkOut
deriving DecidableEq, Repr

/--
The `for (const item of items)` loop of the checkout handler
(lines 320-338): resolve each cart line against the catalog, failing on the
first missing/inactive product (`Product not available`), sold-out product,
or over-quantity line, and otherwise emitting the Stripe line item and the
order-item snapshot taken from the catalog record.
-/
def resolveItems (db : Db) : List RItem → Except CkErr (List LineItem × List OrderItem)
  | [] => .ok ([], [])
  | item :: rest =>
    match db.products.find? (fun p => p.id = item.productId) with
    | none => .error (.notAvailable item.productId)
    | some p =>
      if p.active = false then .error (.notAvailable item.productId)
      else if jle p.inventory (.num 0) then .error (.soldOut p.name)
      else if jgt item.qty p.inventory then .error (.insufficient p.name p.inventory)
      else
        match resolveItems db rest with
        | .error e => .error e
        | .ok (ls, os) =>
          .ok ({ quantity := item.qty, unitAmount := p.priceCents, name := p.name } :: ls,
               { productId := p.id, name := p.name, priceCents := p.priceCents,
                 qty := item.qty } :: os)

/-- `orderItems.reduce((s, i) => s + i.priceCents * i.qty, 0)` (line 341). -/
def orderSubtotal (items : List OrderItem) : JNum :=
  items.foldl (fun s i => jadd s (jmul (.num i.priceCents) i.qty)) (.num 0)

/-- The order record pushed on lines 343-355. -/
def newOrder (uuid now : String) (items : List OrderItem) : Order :=
  { id := uuid
    status := "pending"
    createdAt := now
    paidAt := none
    items := items
    subtotalCents := orderSubtotal items
    customerEmail := ""
    customerName := ""
    customerPhone := ""
    shipping := none
    stripeSessionId := "" }

/--
The `POST /api/create-checkout-session` handler (lines 304-357), up to and
including the `writeDb` persisting the pending order.  `cart` is
`req.body?.cart`: `none` when it is not an array.  `uuid` is the
`crypto.randomUUID()` result and `now` the clock reading.
-/
def checkout (db : Db) (cart : Option (List CartLine)) (uuid now : String) : Db × CkOut :=
  match cart with
  | none => (db, .err .invalidCart)
  | some c =>
    if c.isEmpty then (db, .err .invalidCart)
    else
      match resolveItems db (c.map toRItem) with
      | .error e => (db, .err e)
      | .ok (ls, os) =>
        ({ db with orders := db.orders ++ [newOrder uuid now os] }, .ok uuid ls)

structure TokenInfo where
  createdAt : Int
  expiresAt : Int
deriving DecidableEq, Repr

/-- The in-memory `adminTokens` `Map`, as an association list. -/
abbrev TokenMap := List (String × TokenInfo)

def mapGet (m : TokenMap) (k : String) : Option TokenInfo :=
  ((List.find? (fun kv => kv.1 = k) m)).map (fun kv => kv.2)

def mapDelete (m : TokenMap) (k : String) : TokenMap :=
  List.filter (fun kv => kv.1 ≠ k) m

def mapSet (m : TokenMap) (k : String) (v : TokenInfo) : TokenMap :=
  if (List.find? (fun kv => kv.1 = k) m).isSome then
    List.map (fun kv => if kv.1 = k then (k, v) else kv) m
  else m ++ [(k, v)]

/-- JavaScript `String.prototype.trim` (whitespace stripped at both ends),
written over the character list so that it reduces definitionally. -/
def jsTrim (s : String) : String :=
  String.mk (((s.toList.dropWhile Char.isWhitespace).reverse.dropWhile
    Char.isWhitespace).reverse)

/-- ASCII lowercasing, the fragment of `String.prototype.toLowerCase`
relevant to `slugify` (non-ASCII letters are discarded by the
`[^a-z0-9]` replacement either way). -/
def asciiLower (c : Char) : Char :=
  if ('A' ≤ c && c ≤ 'Z') then Char.ofNat (c.toNat + 32) else c

def jsLower (s : String) : String :=
  String.mk (s.toList.map asciiLower)

/-- `auth.startsWith("Bearer ") ? auth.slice(7) : ""` (line 159). -/
def parseBearer (auth : String) : String :=
  let cs := auth.toList
  if cs.take 7 = "Bearer ".toList then String.mk (cs.drop 7) else ""

inductive AuthResult where
  | denied : String → AuthResult
  | allowed : AuthResult
deriving DecidableEq, Repr

/--
The `requireAdmin` middleware (`src/server.js` lines 157-169): extract the
bearer token, answer 401 `Not authorized` when it is unknown, delete it and
answer 401 `Token expired` when `Date.now() > info.expiresAt`, and otherwise
fall through to the guarded handler.  The returned map reflects the possible
deletion.
-/
def requireAdmin (toks : TokenMap) (auth : String) (now : Int) : TokenMap × AuthResult :=
  let token := parseBearer auth
  match mapGet toks token with
  | none => (toks, .denied "Not authorized")
  | some info =>
    if info.expiresAt < now then (mapDelete toks token, .denied "Token expired")
    else (toks, .allowed)

/-- `1000 * 60 * 60 * 12` — the fixed credential lifetime (line 178). -/
def tokenLifetimeMs : Int := 1000 * 60 * 60 * 12

inductive LoginResp where
  | wrongPassword : LoginResp
  | token : String → LoginResp
deriving DecidableEq, Repr

/--
The `POST /api/admin/login` handler (lines 171-180).  `password` is the
value of `String(password || "")`, `newToken` the `makeToken()` result.
-/
def adminLogin (toks : TokenMap) (password adminPassword : String) (now : Int)
    (newToken : String) : TokenMap × LoginResp :=
  if password ≠ adminPassword then (toks, .wrongPassword)
  else (mapSet toks newToken { createdAt := now, expiresAt := now + tokenLifetimeMs },
        .token newToken)

/--
An administrative route (`/api/admin/orders`, product create/update/delete,
upload) behind the `requireAdmin` middleware: when the middleware denies,
the handler body never runs and the store is untouched (`none` response);
otherwise the handler runs.
-/
def adminEndpoint {α : Type} (toks : TokenMap) (auth : String) (now : Int)
    (handler : Db → Db × α) (db : Db) : TokenMap × Db × Option α :=
  match requireAdmin toks auth now with
  | (toks2, .denied _) => (toks2, db, none)
  | (toks2, .allowed) =>
    let r := handler db
    (toks2, r.1, some r.2)

/-- `[a-z0-9]` membership, the characters `slugify` keeps. -/
def isSlugChar (c : Char) : Bool :=
  (('a' ≤ c) && (c ≤ 'z')) || (('0' ≤ c) && (c ≤ '9'))

/-- Collapse runs of consecutive dashes, the effect of replacing each
maximal `[^a-z0-9]+` run by a single `-`. -/
def squeezeDashes : List Char → List Char
  | [] => []
  | [c] => [c]
  | c :: d :: rest =>
    if c = '-' && d = '-' then squeezeDashes (d :: rest)
    else c :: squeezeDashes (d :: rest)

/--
`slugify` (`src/server.js` lines 133-140): lowercase, trim, replace runs of
non-`[a-z0-9]` with `-`, strip leading/trailing dashes, truncate to 60
characters, and fall back to a random 8-character id when empty.
-/
def slugify (s : String) (uuidFallback : String) : String :=
  let base := (jsTrim (jsLower s)).toList.map (fun c => if isSlugChar c then c else '-')
  let stripped :=
    (((squeezeDashes base).dropWhile (fun c => c = '-')).reverse.dropWhile
      (fun c => c = '-')).reverse
  let sliced := String.mk (stripped.take 60)
  if sliced = "" then uuidFallback else sliced

/-- `moneyCents` (lines 142-146): `0` for a non-finite value, else
`Math.round` — the identity on the integral values modelled here. -/
def moneyCents : JNum → Int
  | .nan => 0
  | .num n => n

/-- The request body of `POST /api/admin/products`.  `name` and `idField`
carry the results of the `String(...)` coercions, with `idField = ""` for a
falsy `body.id`; `activeNotFalse` is `body.active !== false`. -/
structure CreateBody where
  name : String
  idField : String
  priceCents : JNum
  imageUrl : String
  inventory : JNum
  activeNotFalse : Bool
deriving DecidableEq, Repr

inductive CreateResp where
  | err : String → CreateResp
  | created : Product → CreateResp
deriving DecidableEq, Repr

/-- `body.id ? slugify(body.id) : slugify(name)` (line 231). -/
def createdId (body : CreateBody) (uuidFallback : String) : String :=
  if body.idField ≠ "" then slugify body.idField uuidFallback
  else slugify (jsTrim body.name) uuidFallback

/-- `Number.isFinite(Number(body.inventory)) ? Number(body.inventory) : 1`
(line 244). -/
def createInvRaw (body : CreateBody) : Int :=
  match body.inventory with
  | .num n => n
  | .nan => 1

/--
The `POST /api/admin/products` handler body (lines 224-256): validate the
name, derive and check the slug id, build the product, reject
`priceCents < 50`, coerce a negative inventory to `0`, and append.
-/
def createProduct (db : Db) (body : CreateBody) (now : String) (uuidFallback : String) :
    Db × CreateResp :=
  let name := jsTrim body.name
  if name = "" then (db, .err "Name is required")
  else
    let id := createdId body uuidFallback
    if db.products.any (fun p => p.id = id) then (db, .err "ID already exists")
    else
      let product : Product :=
        { id := id, name := name, priceCents := moneyCents body.priceCents,
          imageUrl := body.imageUrl, inventory := .num (createInvRaw body),
          active := body.activeNotFalse, createdAt := now, updatedAt := now }
      if product.priceCents < 50 then (db, .err "Price too low")
      else
        let product :=
          if createInvRaw body < 0 then { product with inventory := .num 0 } else product
        ({ db with products := db.products ++ [product] }, .created product)

/-- The request body of `PUT /api/admin/products/:id`: each field is `some`
exactly when it is `!== undefined` in the request. -/
structure UpdateBody where
  name : Option String
  priceCents : Option JNum
  imageUrl : Option String
  inventory : Option JNum
  active : Option Bool
deriving DecidableEq, Repr

inductive UpdateResp where
  | notFound : UpdateResp
  | err : String → UpdateResp
  | updated : Product → UpdateResp
deriving DecidableEq, Repr

/-- The per-field `if (body.x !== undefined)` assignments of the update
handler (lines 266-275). -/
def applyUpdates (p0 : Product) (body : UpdateBody) : Product :=
  let p1 := match body.name with
    | some n => { p0 with name := jsTrim n }
    | none => p0
  let p2 := match body.priceCents with
    | some v => { p1 with priceCents := moneyCents v }
    | none => p1
  let p3 := match body.imageUrl with
    | some v => { p2 with imageUrl := v }
    | none => p2
  let p4 := match body.inventory with
    | some v => { p3 with inventory := v }
    | none => p3
  match body.active with
  | some b => { p4 with active := b }
  | none => p4

/-- `if (!Number.isFinite(p.inventory) || p.inventory < 0) p.inventory = 0`
(line 279). -/
def coerceInv (p : Product) : Product :=
  match p.inventory with
  | .nan => { p with inventory := .num 0 }
  | .num n => if n < 0 then { p with inventory := .num 0 } else p

/--
The `PUT /api/admin/products/:id` handler body (lines 258-284).  On a
validation failure the handler returns before `writeDb`, so the persisted
store is unchanged.  `Number(body.inventory)` may be `NaN`; the
`!Number.isFinite(p.inventory) || p.inventory < 0` guard coerces it to `0`.
-/
def updateProduct (db : Db) (pid : String) (body : UpdateBody) (now : String) :
    Db × UpdateResp :=
  match db.products.find? (fun p => p.id = pid) with
  | none => (db, .notFound)
  | some p0 =>
    let p5 := applyUpdates p0 body
    if p5.name = "" then (db, .err "Name is required")
    else if p5.priceCents < (50 : Int) then (db, .err "Price too low")
    else
      let p7 := { coerceInv p5 with updatedAt := now }
      ({ db with products := updateFirst (fun q => q.id = pid) (fun _ => p7) db.products },
       .updated p7)

inductive DeleteResp where
  | notFound : DeleteResp
  | okTrue : DeleteResp
deriving DecidableEq, Repr

/-- The `DELETE /api/admin/products/:id` handler body (lines 286-294). -/
def deleteProduct (db : Db) (pid : String) : Db × DeleteResp :=
  let remaining := db.products.filter (fun p => p.id ≠ pid)
  if remaining.length = db.products.length then (db, .notFound)
  else ({ db with products := remaining }, .okTrue)

/-- Status of the order with the given id, if present. -/
def orderStatus (db : Db) (oid : String) : Option String :=
  (db.orders.find? (fun o => o.id = oid)).map (fun o => o.status)

/-!
Event-loop interleavings of two webhook handler invocations.

In `src/server.js` each webhook invocation runs `const db = await readDb()`
(a suspension point; `readDb` is NOT routed through `writeLock`), then
mutates its private parsed copy synchronously, then `await writeDb(db)`,
which appends to the `writeLock` promise chain a write of that whole copy.
Between one invocation's read and its write, the event loop may run any
steps of another invocation.  A handler invocation is therefore faithfully
modelled as two atomic phases over a shared `Db`: a read phase that snapshots
the store, and a write phase that replaces the store with the state computed
by `webhookApply` from that handler's own snapshot (`writeLock` orders the
replacements but each still writes the whole snapshot-derived document).
-/

inductive Phase where
  | start : Phase
  | readDone : Db → Phase
  | done : Phase
deriving DecidableEq, Repr

/-- One event-loop step of a single webhook invocation. -/
def taskStep (ev : StripeEvent) (now : String) (shared : Db) : Phase → Db × Phase
  | .start => (shared, .readDone shared)
  | .readDone snap => ((webhookApply ev now snap).1, .done)
  | .done => (shared, .done)

inductive Tid where
  | A : Tid
  | B : Tid
deriving DecidableEq, Repr

structure SysState where
  shared : Db
  phaseA : Phase
  phaseB : Phase
deriving DecidableEq, Repr

def schedStep (evA evB : StripeEvent) (nowA nowB : String) (s : SysState) : Tid → SysState
  | .A =>
    let r := taskStep evA nowA s.shared s.phaseA
    { shared := r.1, phaseA := r.2, phaseB := s.phaseB }
  | .B =>
    let r := taskStep evB nowB s.shared s.phaseB
    { shared := r.1, phaseA := s.phaseA, phaseB := r.2 }

/-- Run two webhook invocations under an explicit event-loop schedule. -/
def runSchedule (evA evB : StripeEvent) (nowA nowB : String) (db0 : Db)
    (sched : List Tid) : SysState :=
  sched.foldl (schedStep evA evB nowA nowB) { shared := db0, phaseA := .start, phaseB := .start }

/-! ## Helper lemmas -/

lemma map_updateFirst {α β : Type} (p : α → Bool) (g : α → α) (f : α → β)
    (hf : ∀ x, f (g x) = f x) :
    ∀ l : List α, (updateFirst p g l).map f = l.map f := by
  intro l
  induction l with
  | nil => rfl
  | cons x xs ih =>
    by_cases hx : p x
    · simp [updateFirst, hx, hf]
    · simp [updateFirst, hx, ih]

lemma find?_updateFirst {α : Type} (p : α → Bool) (g : α → α)
    (hg : ∀ x, p (g x) = p x) :
    ∀ (l : List α) (o : α), l.find? p = some o →
      (updateFirst p g l).find? p = some (g o) := by
  intro l
  induction l with
  | nil => intro o h; simp [List.find?] at h
  | cons x xs ih =>
    intro o h
    cases hx : p x with
    | true =>
      rw [List.find?_cons, hx] at h
      injection h with h2
      subst h2
      have hgx : p (g x) = true := (hg x).trans hx
      simp [updateFirst, hx, List.find?_cons, hgx]
    | false =>
      rw [List.find?_cons, hx] at h
      simp [updateFirst, hx, List.find?_cons, ih _ h]

lemma forall_mem_updateFirst {α : Type} {P : α → Prop} (p : α → Bool) (g : α → α)
    (l : List α) (hP : ∀ x ∈ l, P x) (hg : ∀ x ∈ l, P (g x)) :
    ∀ y ∈ updateFirst p g l, P y := by
  induction l with
  | nil => intro y hy; simp [updateFirst] at hy
  | cons x xs ih =>
    intro y hy
    by_cases hx : p x
    · simp [updateFirst, hx] at hy
      rcases hy with hy | hy
      · exact hy ▸ hg x (by simp)
      · exact hP y (by simp [hy])
    · simp [updateFirst, hx] at hy
      rcases hy with hy | hy
      · exact hy ▸ hP x (by simp)
      · exact ih (fun a ha => hP a (by simp [ha])) (fun a ha => hg a (by simp [ha])) y hy

/-- An unconditional unfolding of `webhook` when the secret is set and the
signature verifies. -/
lemma webhook_eq_apply {secret : String} (hs : secret ≠ "") (ev : StripeEvent)
    (now : String) (db : Db) :
    webhook secret true ev now db = ((webhookApply ev now db).1, WebhookResp.ok) := by
  simp [webhook, hs]

/-- When the targeted order is already `paid`, `webhookApply` does not reach
the mutating branch. -/
lemma webhookApply_paid_noop {ev : StripeEvent} {now : String} {db : Db} {oid : String}
    {o : Order} (ht : ev.type = "checkout.session.completed")
    (ho : ev.orderId = some oid) (hoid : oid ≠ "")
    (hfind : db.orders.find? (fun o2 => o2.id = oid) = some o)
    (hp : o.status = "paid") :
    webhookApply ev now db = (db, false) := by
  simp [webhookApply, ht, ho, hoid, hfind, hp]

/-- When the targeted order is not yet `paid`, `webhookApply` performs the
paid transition and the inventory decrements. -/
lemma webhookApply_pending {ev : StripeEvent} {now : String} {db : Db} {oid : String}
    {o : Order} (ht : ev.type = "checkout.session.completed")
    (ho : ev.orderId = some oid) (hoid : oid ≠ "")
    (hfind : db.orders.find? (fun o2 => o2.id = oid) = some o)
    (hp : o.status ≠ "paid") :
    webhookApply ev now db =
      ({ products := applyDecrements o.items db.products
         orders := updateFirst (fun o2 => o2.id = oid) (markPaid ev now) db.orders },
       true) := by
  simp [webhookApply, ht, ho, hoid, hfind, hp]

/-! ## C10 -/

/--
C10: with an empty webhook secret (`STRIPE_WEBHOOK_SECRET = ""`), every
`POST /webhook` request is acknowledged with HTTP 200 before any signature
verification, the store is returned untouched (so no order transitions to
`paid` and no inventory is decremented), for every signature outcome, event
and store.
-/
theorem c10_no_secret_acks_without_effect (sigOk : Bool) (ev : StripeEvent)
    (now : String) (db : Db) :
    webhook "" sigOk ev now db = (db, WebhookResp.noSecret) ∧
    webhookStatus WebhookResp.noSecret = 200 := by
  exact ⟨by simp [webhook], rfl⟩

/-! ## C9 -/

/--
C9: when reading or parsing the backing JSON store fails (`none` input:
missing file, unreadable file, or corrupt JSON), `readDb` returns the fresh
empty store `{products: [], orders: []}` and persists exactly that store, so
no previously stored order or product is visible in the result; no error is
surfaced (the function is total, with no error outcome in its type).
-/
theorem c9_read_failure_resets_store :
    readDb none = (emptyDb, [emptyDb]) ∧ emptyDb.products = [] ∧ emptyDb.orders = [] ∧
    (∀ db : Db, readDb (some db) = (db, [])) :=
  ⟨rfl, rfl, rfl, fun _ => rfl⟩

/-! ## C1 -/

/--
C1: with the secret configured and a verified signature, a
`checkout.session.completed` event whose correlation id resolves to an order
already in status `paid` is a no-op acknowledged with success — the handler
returns the store verbatim (so `paidAt`, the customer fields and every
product inventory are unchanged); moreover, redelivering the identical event
to the store produced by a first delivery is always such a no-op, so two
deliveries leave exactly the state of one.
-/
theorem c1_paid_event_redelivery_noop (secret : String) (ev : StripeEvent) (now : String)
    (db : Db) (oid : String) (o : Order)
    (hs : secret ≠ "") (ht : ev.type = "checkout.session.completed")
    (ho : ev.orderId = some oid) (hoid : oid ≠ "")
    (hfind : db.orders.find? (fun o2 => o2.id = oid) = some o) :
    (o.status = "paid" → webhook secret true ev now db = (db, WebhookResp.ok)) ∧
    (∀ now2 : String,
      webhook secret true ev now2 (webhook secret true ev now db).1 =
        ((webhook secret true ev now db).1, WebhookResp.ok)) := by
  have hid : ∀ x : Order, ((markPaid ev now x).id = oid) = (x.id = oid) := by
    intro x; simp [markPaid]
  constructor
  · intro hp
    rw [webhook_eq_apply hs, webhookApply_paid_noop ht ho hoid hfind hp]
  · intro now2
    by_cases hp : o.status = "paid"
    · have h1 : webhook secret true ev now db = (db, WebhookResp.ok) := by
        rw [webhook_eq_apply hs, webhookApply_paid_noop ht ho hoid hfind hp]
      rw [h1]
      rw [webhook_eq_apply hs, webhookApply_paid_noop ht ho hoid hfind hp]
    · have h1 : webhook secret true ev now db =
          ({ products := applyDecrements o.items db.products
             orders := updateFirst (fun o2 => o2.id = oid) (markPaid ev now) db.orders },
           WebhookResp.ok) := by
        rw [webhook_eq_apply hs, webhookApply_pending ht ho hoid hfind hp]
      rw [h1]
      have hfind2 :
          (updateFirst (fun o2 => o2.id = oid) (markPaid ev now) db.orders).find?
            (fun o2 => o2.id = oid) = some (markPaid ev now o) :=
        find?_updateFirst _ _ (fun x => by simp [markPaid]) _ _ hfind
      rw [webhook_eq_apply hs,
        webhookApply_paid_noop ht ho hoid hfind2 (by simp [markPaid])]

def oW : Order :=
  { id := "o1", status := "paid", createdAt := "t0", paidAt := some "t1",
    items := [{ productId := "shoe-1", name := "Shoe", priceCents := 2000, qty := .num 2 }],
    subtotalCents := .num 4000, customerEmail := "a@b.c", customerName := "A B",
    customerPhone := "", shipping := none, stripeSessionId := "cs_1" }

def dbW : Db :=
  { products := [{ id := "shoe-1", name := "Shoe", priceCents := 2000, imageUrl := "",
                   inventory := .num 3, active := true, createdAt := "t0", updatedAt := "t0" }],
    orders := [oW] }

def evW : StripeEvent :=
  { type := "checkout.session.completed", orderId := some "o1", sessionId := "cs_1",
    email := some "a@b.c", custName := some "A B", phone := none, shipping := none }

theorem c1_witness : webhook "whsec" true evW "t9" dbW = (dbW, WebhookResp.ok) :=
  (c1_paid_event_redelivery_noop "whsec" evW "t9" dbW "o1" oW (by decide) rfl rfl
    (by decide) (by decide)).1 rfl

/-! ## C3 -/

/-- The rejection (if any) that a single cart line earns from the checks of
the resolver loop: product missing or inactive, sold out, or requested
quantity exceeding current inventory. -/
def lineErr (db : Db) (x : CartLine) : Option CkErr :=
  match db.products.find? (fun p => p.id = x.id) with
  | none => some (.notAvailable x.id)
  | some p =>
    if p.active = false then some (.notAvailable x.id)
    else if jle p.inventory (.num 0) then some (.soldOut p.name)
    else if jgt (resolveQty x.qty) p.inventory then some (.insufficient p.name p.inventory)
    else none

lemma resolveItems_err_of_bad (db : Db) :
    ∀ c : List CartLine, (∃ x ∈ c, (lineErr db x).isSome) →
      ∃ e, resolveItems db (c.map toRItem) = .error e ∧ ∃ x ∈ c, lineErr db x = some e := by
  intro c
  induction c with
  | nil => intro h; simp at h
  | cons x rest ih =>
    intro h
    cases hfind : db.products.find? (fun p => p.id = x.id) with
    | none =>
      refine ⟨.notAvailable x.id, ?_, x, by simp, by simp [lineErr, hfind]⟩
      simp [resolveItems, toRItem, hfind]
    | some p =>
      by_cases hact : p.active = false
      · refine ⟨.notAvailable x.id, ?_, x, by simp, by simp [lineErr, hfind, hact]⟩
        simp [resolveItems, toRItem, hfind, hact]
      · by_cases hinv : jle p.inventory (.num 0) = true
        · refine ⟨.soldOut p.name, ?_, x, by simp, by simp [lineErr, hfind, hact, hinv]⟩
          simp [resolveItems, toRItem, hfind, hact, hinv]
        · by_cases hq : jgt (resolveQty x.qty) p.inventory = true
          · refine ⟨.insufficient p.name p.inventory, ?_, x, by simp,
              by simp [lineErr, hfind, hact, hinv, hq]⟩
            simp [resolveItems, toRItem, hfind, hact, hinv, hq]
          · have hx : lineErr db x = none := by simp [lineErr, hfind, hact, hinv, hq]
            have hrest : ∃ y ∈ rest, (lineErr db y).isSome := by
              rcases h with ⟨y, hy, hsome⟩
              rcases List.mem_cons.mp hy with rfl | hy2
              · rw [hx] at hsome; simp at hsome
              · exact ⟨y, hy2, hsome⟩
            rcases ih hrest with ⟨e, herr, y, hy, hle⟩
            refine ⟨e, ?_, y, by simp [hy], hle⟩
            simp [resolveItems, toRItem, hfind, hact, hinv, hq, herr]

/--
C3: every checkout request whose cart is missing/not an array, empty, or
contains a line rejected by the availability checks (product missing or
inactive, inventory ≤ 0, or quantity above current inventory) is answered
with a rejection — `invalidCart` for the empty/non-array case, and otherwise
exactly the error generated by one of the offending cart lines (naming that
product) — and the store, in particular its orders list, is returned
unchanged: no order is created.
-/
theorem c3_bad_cart_rejected_without_order (db : Db) (cart : Option (List CartLine))
    (uuid now : String)
    (hbad : cart = none ∨ cart = some [] ∨
      ∃ c, cart = some c ∧ ∃ x ∈ c, (lineErr db x).isSome) :
    ∃ e, checkout db cart uuid now = (db, .err e) ∧
      (((cart = none ∨ cart = some []) ∧ e = .invalidCart) ∨
       ∃ c, cart = some c ∧ ∃ x ∈ c, lineErr db x = some e) := by
  rcases hbad with rfl | rfl | ⟨c, rfl, hoff⟩
  · exact ⟨.invalidCart, rfl, Or.inl ⟨Or.inl rfl, rfl⟩⟩
  · exact ⟨.invalidCart, rfl, Or.inl ⟨Or.inr rfl, rfl⟩⟩
  · rcases resolveItems_err_of_bad db c hoff with ⟨e, herr, y, hy, hle⟩
    have hne : c.isEmpty = false := by
      cases c with
      | nil => simp at hy
      | cons a l => rfl
    refine ⟨e, ?_, Or.inr ⟨c, rfl, y, hy, hle⟩⟩
    simp [checkout, hne, herr]

def pS : Product :=
  { id := "shoe-1", name := "Shoe", priceCents := 2000, imageUrl := "",
    inventory := .num 5, active := true, createdAt := "t0", updatedAt := "t0" }

def dbS : Db := { products := [pS], orders := [] }

def goodLine : CartLine := { id := "shoe-1", qty := .numv 2, price := .num 1, extra := "" }

def overLine : CartLine := { id := "shoe-1", qty := .numv 10, price := .num 1, extra := "" }

theorem c3_witness :
    ∃ e, checkout dbS (some [overLine]) "u3" "t3" = (dbS, .err e) ∧
      (((some [overLine] = (none : Option (List CartLine)) ∨ some [overLine] = some []) ∧
          e = .invalidCart) ∨
       ∃ c, (some [overLine] : Option (List CartLine)) = some c ∧
         ∃ x ∈ c, lineErr dbS x = some e) :=
  c3_bad_cart_rejected_without_order dbS (some [overLine]) "u3" "t3"
    (Or.inr (Or.inr ⟨[overLine], rfl, overLine, by simp, by decide⟩))

/-! ## C4 -/

lemma jadd_zero_left : ∀ a : JNum, jadd (.num 0) a = a := by
  intro a; cases a <;> simp [jadd]

lemma jadd_zero_right : ∀ a : JNum, jadd a (.num 0) = a := by
  intro a; cases a <;> simp [jadd]

lemma jadd_assoc : ∀ a b c : JNum, jadd (jadd a b) c = jadd a (jadd b c) := by
  intro a b c
  cases a <;> cases b <;> cases c <;> simp [jadd, Int.add_assoc]

lemma foldl_jadd_eq_foldr (f : OrderItem → JNum) :
    ∀ (l : List OrderItem) (a : JNum),
      l.foldl (fun s i => jadd s (f i)) a = jadd a (l.foldr (fun i s => jadd (f i) s) (.num 0)) := by
  intro l
  induction l with
  | nil => intro a; simp [jadd_zero_right]
  | cons i l ih =>
    intro a
    simp only [List.foldl_cons, List.foldr_cons, ih, jadd_assoc]

lemma orderSubtotal_eq_foldr (items : List OrderItem) :
    orderSubtotal items =
      items.foldr (fun i s => jadd (jmul (.num i.priceCents) i.qty) s) (.num 0) := by
  rw [orderSubtotal, foldl_jadd_eq_foldr (fun i => jmul (.num i.priceCents) i.qty), jadd_zero_left]

/-- Every snapshot the resolver loop emits is copied from the catalog record
the loop found for that line. -/
lemma resolveItems_ok_provenance (db : Db) :
    ∀ (items : List RItem) (ls : List LineItem) (os : List OrderItem),
      resolveItems db items = .ok (ls, os) →
      (∀ li ∈ ls, ∃ p ∈ db.products, li.unitAmount = p.priceCents ∧ li.name = p.name) ∧
      (∀ it ∈ os, ∃ p, db.products.find? (fun q => q.id = it.productId) = some p ∧
        it.priceCents = p.priceCents ∧ it.name = p.name) := by
  intro items
  induction items with
  | nil =>
    intro ls os h
    simp [resolveItems] at h
    rcases h with ⟨rfl, rfl⟩
    exact ⟨by simp, by simp⟩
  | cons item rest ih =>
    intro ls os h
    cases hfind : db.products.find? (fun p => p.id = item.productId) with
    | none => simp [resolveItems, hfind] at h
    | some p =>
      by_cases hact : p.active = false
      · simp [resolveItems, hfind, hact] at h
      · by_cases hinv : jle p.inventory (.num 0) = true
        · simp [resolveItems, hfind, hact, hinv] at h
        · by_cases hq : jgt item.qty p.inventory = true
          · simp [resolveItems, hfind, hact, hinv, hq] at h
          · cases hrest : resolveItems db rest with
            | error e => simp [resolveItems, hfind, hact, hinv, hq, hrest] at h
            | ok pr =>
              rcases pr with ⟨ls2, os2⟩
              rcases ih ls2 os2 hrest with ⟨hls2, hos2⟩
              simp [resolveItems, hfind, hact, hinv, hq, hrest] at h
              rcases h with ⟨rfl, rfl⟩
              have hpmem : p ∈ db.products := List.mem_of_find?_eq_some hfind
              have hpid : p.id = item.productId := by
                have := List.find?_some hfind
                simpa using this
              constructor
              · intro li hli
                rcases List.mem_cons.mp hli with rfl | hli2
                · exact ⟨p, hpmem, rfl, rfl⟩
                · exact hls2 li hli2
              · intro it hit
                rcases List.mem_cons.mp hit with rfl | hit2
                · refine ⟨p, ?_, rfl, rfl⟩
                  simpa [hpid] using hfind
                · exact hos2 it hit2

/-- The webhook handler never rewrites an order's `items` or
`subtotalCents`, whatever the configuration, signature outcome or event. -/
lemma webhook_preserves_items_subtotal (secret : String) (sigOk : Bool)
    (ev : StripeEvent) (now : String) (db : Db) :
    ((webhook secret sigOk ev now db).1.orders.map (fun o => (o.items, o.subtotalCents))) =
      db.orders.map (fun o => (o.items, o.subtotalCents)) := by
  have happly : ((webhookApply ev now db).1.orders.map
      (fun o => (o.items, o.subtotalCents))) =
      db.orders.map (fun o => (o.items, o.subtotalCents)) := by
    by_cases ht : ev.type = "checkout.session.completed"
    · cases ho : ev.orderId with
      | none => simp [webhookApply, ht, ho]
      | some oid =>
        by_cases hoid : oid = ""
        · simp [webhookApply, ht, ho, hoid]
        · cases hfind : db.orders.find? (fun o => o.id = oid) with
          | none => simp [webhookApply, ht, ho, hoid, hfind]
          | some o =>
            by_cases hp : o.status = "paid"
            · simp [webhookApply, ht, ho, hoid, hfind, hp]
            · rw [webhookApply_pending ht ho hoid hfind hp]
              exact map_updateFirst _ _ _ (fun x => by simp [markPaid]) _
    · simp [webhookApply, ht]
  by_cases hs : secret = ""
  · simp [webhook, hs]
  · cases sigOk with
    | false => simp [webhook, hs]
    | true => simpa [webhook, hs] using happly

/--
C4: every order created by a successful checkout is appended with status
`pending` and `subtotalCents` equal to the sum over its items of the
snapshotted unit `priceCents` times quantity, each snapshot copied from the
catalog record resolved at creation time; and the payment-confirmation
handler never changes any order's `subtotalCents` or item snapshots.
-/
theorem c4_subtotal_of_snapshots_immutable :
    (∀ (db : Db) (cart : Option (List CartLine)) (uuid now : String) (db2 : Db)
        (oid : String) (ls : List LineItem),
      checkout db cart uuid now = (db2, .ok oid ls) →
      ∃ ord, db2.orders = db.orders ++ [ord] ∧ ord.status = "pending" ∧
        ord.subtotalCents =
          ord.items.foldr (fun i s => jadd (jmul (.num i.priceCents) i.qty) s) (.num 0) ∧
        ∀ it ∈ ord.items, ∃ p, db.products.find? (fun q => q.id = it.productId) = some p ∧
          it.priceCents = p.priceCents ∧ it.name = p.name) ∧
    (∀ (secret : String) (sigOk : Bool) (ev : StripeEvent) (now2 : String) (d : Db),
      ((webhook secret sigOk ev now2 d).1.orders.map (fun o => (o.items, o.subtotalCents))) =
        d.orders.map (fun o => (o.items, o.subtotalCents))) := by
  constructor
  · intro db cart uuid now db2 oid ls h
    match cart with
    | none => simp [checkout] at h
    | some c =>
      by_cases hne : c.isEmpty
      · simp [checkout, hne] at h
      · cases hres : resolveItems db (c.map toRItem) with
        | error e => simp [checkout, hne, hres] at h
        | ok pr =>
          rcases pr with ⟨ls2, os2⟩
          simp [checkout, hne, hres] at h
          rcases h with ⟨h1, _, _⟩
          refine ⟨newOrder uuid now os2, by rw [← h1], rfl, ?_, ?_⟩
          · simpa [newOrder] using orderSubtotal_eq_foldr os2
          · intro it hit
            have hos : it ∈ os2 := by simpa [newOrder] using hit
            exact (resolveItems_ok_provenance db _ ls2 os2 hres).2 it hos
  · exact webhook_preserves_items_subtotal

def ordS : Order :=
  { id := "u1", status := "pending", createdAt := "t1", paidAt := none,
    items := [{ productId := "shoe-1", name := "Shoe", priceCents := 2000, qty := .num 2 }],
    subtotalCents := .num 4000, customerEmail := "", customerName := "",
    customerPhone := "", shipping := none, stripeSessionId := "" }

def dbS2 : Db := { products := [pS], orders := [ordS] }

theorem c4_witness :
    ∃ ord, dbS2.orders = dbS.orders ++ [ord] ∧ ord.status = "pending" ∧
      ord.subtotalCents =
        ord.items.foldr (fun i s => jadd (jmul (.num i.priceCents) i.qty) s) (.num 0) ∧
      ∀ it ∈ ord.items, ∃ p, dbS.products.find? (fun q => q.id = it.productId) = some p ∧
        it.priceCents = p.priceCents ∧ it.name = p.name :=
  c4_subtotal_of_snapshots_immutable.1 dbS (some [goodLine]) "u1" "t1" dbS2 "u1"
    [{ quantity := .num 2, unitAmount := 2000, name := "Shoe" }] (by decide)

/-! ## C5 -/

/--
C5: the checkout handler reads nothing from a cart line except its product
id and quantity — two carts agreeing on the `(id, qty)` projection (however
their client-supplied `price` or other extra fields differ) produce the
identical result, store included; and on success every unit price sent to
the payment processor in the Stripe line items comes from the catalog
record of that product, never from the request body.
-/
theorem c5_checkout_ignores_client_price :
    (∀ (db : Db) (c1 c2 : List CartLine) (uuid now : String),
      c1.map (fun x => (x.id, x.qty)) = c2.map (fun x => (x.id, x.qty)) →
      checkout db (some c1) uuid now = checkout db (some c2) uuid now) ∧
    (∀ (db : Db) (c : List CartLine) (uuid now : String) (db2 : Db) (oid : String)
        (ls : List LineItem),
      checkout db (some c) uuid now = (db2, .ok oid ls) →
      ∀ li ∈ ls, ∃ p ∈ db.products, li.unitAmount = p.priceCents ∧ li.name = p.name) := by
  constructor
  · intro db c1 c2 uuid now hproj
    have hlift : ∀ c : List CartLine,
        (c.map (fun x => (x.id, x.qty))).map
          (fun pr : String × QtyField => ({ productId := pr.1, qty := resolveQty pr.2 } : RItem)) =
        c.map toRItem := by
      intro c; rw [List.map_map]; rfl
    have hmap : c1.map toRItem = c2.map toRItem := by
      rw [← hlift c1, ← hlift c2, hproj]
    have hemp : c1.isEmpty = c2.isEmpty := by
      cases c1 <;> cases c2 <;> simp_all
    simp only [checkout, hemp, hmap]
  · intro db c uuid now db2 oid ls h
    by_cases hne : c.isEmpty
    · simp [checkout, hne] at h
    · cases hres : resolveItems db (c.map toRItem) with
      | error e => simp [checkout, hne, hres] at h
      | ok pr =>
        rcases pr with ⟨ls2, os2⟩
        simp [checkout, hne, hres] at h
        rcases h with ⟨_, _, rfl⟩
        exact (resolveItems_ok_provenance db _ ls2 os2 hres).1

def priceyLine : CartLine :=
  { id := "shoe-1", qty := .numv 2, price := .num 999999, extra := "tampered" }

theorem c5_witness :
    checkout dbS (some [goodLine]) "u1" "t1" = checkout dbS (some [priceyLine]) "u1" "t1" :=
  c5_checkout_ignores_client_price.1 dbS [goodLine] [priceyLine] "u1" "t1" (by decide)

/-! ## C7 -/

/-- A cart line whose `qty` is a truthy non-numeric value, e.g.
`{ id: "shoe-1", qty: "abc" }`. -/
def nanLine : CartLine := { id := "shoe-1", qty := .nonNumeric, price := .num 1, extra := "" }

/--
C7 counterexample: the cart line `{ id: "shoe-1", qty: "abc" }` (a truthy
non-numeric quantity) is ACCEPTED by checkout against a product with
inventory 5 — `NaN > 5` is false, so the availability checks pass — and the
resolved quantity stored in the created order is `NaN`, not `1`: a
non-numeric quantity is not treated as `1` and the resolved quantity is not
in `[1, 99]`.
-/
theorem c7_counterexample :
    (checkout dbS (some [nanLine]) "u7" "t7").2 =
      CkOut.ok "u7" [{ quantity := JNum.nan, unitAmount := 2000, name := "Shoe" }] ∧
    ((checkout dbS (some [nanLine]) "u7" "t7").1.orders.map
      (fun o => o.items.map (fun it => it.qty))) = [[JNum.nan]] ∧
    resolveQty QtyField.nonNumeric = JNum.nan ∧ JNum.nan ≠ JNum.num 1 := by
  decide

lemma resolveItems_ok_qtys (db : Db) :
    ∀ (items : List RItem) (ls : List LineItem) (os : List OrderItem),
      resolveItems db items = .ok (ls, os) →
      os.map (fun it => it.qty) = items.map (fun it => it.qty) := by
  intro items
  induction items with
  | nil =>
    intro ls os h
    simp [resolveItems] at h
    rcases h with ⟨rfl, rfl⟩
    simp
  | cons item rest ih =>
    intro ls os h
    cases hfind : db.products.find? (fun p => p.id = item.productId) with
    | none => simp [resolveItems, hfind] at h
    | some p =>
      by_cases hact : p.active = false
      · simp [resolveItems, hfind, hact] at h
      · by_cases hinv : jle p.inventory (.num 0) = true
        · simp [resolveItems, hfind, hact, hinv] at h
        · by_cases hq : jgt item.qty p.inventory = true
          · simp [resolveItems, hfind, hact, hinv, hq] at h
          · cases hrest : resolveItems db rest with
            | error e => simp [resolveItems, hfind, hact, hinv, hq, hrest] at h
            | ok pr =>
              rcases pr with ⟨ls2, os2⟩
              simp [resolveItems, hfind, hact, hinv, hq, hrest] at h
              rcases h with ⟨_, rfl⟩
              simp [ih ls2 os2 hrest]

/--
C7 amended: for every cart line accepted by checkout, the resolved quantity
equals `resolveQty` of the client quantity field, where a missing (or falsy)
quantity resolves to 1 and a numeric quantity `n` resolves to `n` clamped to
`[1, 99]`; but a truthy NON-NUMERIC quantity resolves to `NaN` — it is
neither treated as 1 nor clamped (`Number("abc") = NaN` passes through
`Math.max(1, Math.min(99, ·))` and through every availability check).
-/
theorem c7_amended_quantity_clamp (q : QtyField) :
    (q = .missing → resolveQty q = .num 1) ∧
    (∀ n : Int, q = .numv n → resolveQty q = .num (max 1 (min 99 n))) ∧
    (q = .nonNumeric → resolveQty q = JNum.nan) ∧
    (∀ (db : Db) (c : List CartLine) (uuid now : String) (db2 : Db) (oid : String)
        (ls : List LineItem),
      checkout db (some c) uuid now = (db2, .ok oid ls) →
      ∃ ord, db2.orders = db.orders ++ [ord] ∧
        ord.items.map (fun it => it.qty) = c.map (fun x => resolveQty x.qty)) := by
  refine ⟨?_, ?_, ?_, ?_⟩
  · rintro rfl; rfl
  · rintro n rfl
    by_cases hn : n = 0
    · subst hn; rfl
    · simp [resolveQty, qtyToNum, hn, jmin, jmax]
  · rintro rfl; rfl
  · intro db c uuid now db2 oid ls h
    by_cases hne : c.isEmpty
    · simp [checkout, hne] at h
    · cases hres : resolveItems db (c.map toRItem) with
      | error e => simp [checkout, hne, hres] at h
      | ok pr =>
        rcases pr with ⟨ls2, os2⟩
        simp [checkout, hne, hres] at h
        rcases h with ⟨h1, _, _⟩
        refine ⟨newOrder uuid now os2, by rw [← h1], ?_⟩
        have hq := resolveItems_ok_qtys db (c.map toRItem) ls2 os2 hres
        simp only [newOrder]
        rw [hq, List.map_map]
        rfl

theorem c7_amended_witness : resolveQty (QtyField.numv 150) = JNum.num 99 := by
  have h := (c7_amended_quantity_clamp (QtyField.numv 150)).2.1 150 rfl
  rw [h]
  decide

/-! ## C6 -/

/-- Whether a stored value is an actual number that is non-negative. -/
def isNonNegNumB : JNum → Bool
  | .num k => decide (0 ≤ k)
  | .nan => false

/-- The claimed per-product invariant: inventory a non-negative number, and
`priceCents` at or above the floor of 50. -/
def productOK (p : Product) : Bool :=
  isNonNegNumB p.inventory && decide (50 ≤ p.priceCents)

/--
The `writeDb`/`readDb` JSON round-trip of a stored number.  `JSON.stringify`
serializes a non-finite number as `null` (ECMA-262 SerializeJSONProperty),
`JSON.parse` yields `null` back, and every server-side reader of these
fields converts that `null` to the number `0`: the webhook reads an item
quantity as `Number(item.qty)` (`Number(null) = 0`) and a product inventory
as `Number(p.inventory ?? 0)` (`null ?? 0` is `0`), checkout reads inventory
the same way, and the update handler's `!Number.isFinite(p.inventory)` guard
coerces `null` to `0`.  A store that has been persisted and re-read is
therefore observationally the store with every `nan` replaced by `num 0`.
-/
def persistNum : JNum → JNum
  | .nan => .num 0
  | .num n => .num n

def persistItem (it : OrderItem) : OrderItem :=
  { it with qty := persistNum it.qty }

def persistOrder (o : Order) : Order :=
  { o with items := o.items.map persistItem, subtotalCents := persistNum o.subtotalCents }

/-- The store as a fresh request sees it after `await readDb()`: the result
of serializing the previously written store to JSON and parsing it back. -/
def persistDb (db : Db) : Db :=
  { products := db.products.map (fun p => { p with inventory := persistNum p.inventory })
    orders := db.orders.map persistOrder }

lemma decrementFor_preserves (it : OrderItem) (hq : it.qty ≠ JNum.nan) (ps : List Product)
    (hps : ∀ p ∈ ps, productOK p = true) :
    ∀ p ∈ decrementFor it ps, productOK p = true := by
  refine forall_mem_updateFirst _ _ ps hps ?_
  intro x hx
  have hx2 := hps x hx
  simp only [productOK, Bool.and_eq_true, decide_eq_true_eq] at hx2 ⊢
  obtain ⟨hinv, hprice⟩ := hx2
  refine ⟨?_, hprice⟩
  cases hqx : it.qty with
  | nan => exact absurd hqx hq
  | num q =>
    cases hxi : x.inventory with
    | nan => rw [hxi] at hinv; simp [isNonNegNumB] at hinv
    | num k =>
      simp only [jmax, jsub, hqx, hxi, isNonNegNumB, decide_eq_true_eq]
      exact le_max_left 0 _

lemma applyDecrements_preserves :
    ∀ (items : List OrderItem) (ps : List Product),
      (∀ it ∈ items, it.qty ≠ JNum.nan) → (∀ p ∈ ps, productOK p = true) →
      ∀ p ∈ applyDecrements items ps, productOK p = true := by
  intro items
  induction items with
  | nil => intro ps _ hps; simpa [applyDecrements] using hps
  | cons it rest ih =>
    intro ps hq hps
    have h1 : ∀ p ∈ decrementFor it ps, productOK p = true :=
      decrementFor_preserves it (hq it (by simp)) ps hps
    have h2 : applyDecrements (it :: rest) ps = applyDecrements rest (decrementFor it ps) := rfl
    rw [h2]
    exact ih _ (fun a ha => hq a (by simp [ha])) h1

lemma coerceInv_nonneg (p : Product) : isNonNegNumB (coerceInv p).inventory = true := by
  cases hp : p.inventory with
  | nan => simp [coerceInv, hp, isNonNegNumB]
  | num n =>
    by_cases hn : n < 0
    · simp [coerceInv, hp, hn, isNonNegNumB]
    · simp [coerceInv, hp, hn, isNonNegNumB]
      omega

lemma coerceInv_priceCents (p : Product) : (coerceInv p).priceCents = p.priceCents := by
  cases hp : p.inventory with
  | nan => simp [coerceInv, hp]
  | num n => by_cases hn : n < 0 <;> simp [coerceInv, hp, hn]

lemma applyUpdates_inventory (p0 : Product) (body : UpdateBody) (v : JNum)
    (hv : body.inventory = some v) : (applyUpdates p0 body).inventory = v := by
  rcases body with ⟨bn, bp, bi, binv, ba⟩
  simp only [UpdateBody.inventory] at hv
  subst hv
  cases bn <;> cases bp <;> cases bi <;> cases ba <;> simp [applyUpdates]

lemma webhookApply_products_ok (ev : StripeEvent) (now : String) (db : Db)
    (hq : ∀ o ∈ db.orders, ∀ it ∈ o.items, it.qty ≠ JNum.nan)
    (hps : ∀ p ∈ db.products, productOK p = true) :
    ∀ p ∈ (webhookApply ev now db).1.products, productOK p = true := by
  by_cases ht : ev.type = "checkout.session.completed"
  · cases ho : ev.orderId with
    | none => simpa [webhookApply, ht, ho] using hps
    | some oid =>
      by_cases hoid : oid = ""
      · simpa [webhookApply, ht, ho, hoid] using hps
      · cases hfind : db.orders.find? (fun o => o.id = oid) with
        | none => simpa [webhookApply, ht, ho, hoid, hfind] using hps
        | some o =>
          by_cases hp : o.status = "paid"
          · simpa [webhookApply, ht, ho, hoid, hfind, hp] using hps
          · rw [webhookApply_pending ht ho hoid hfind hp]
            have homem : o ∈ db.orders := List.mem_of_find?_eq_some hfind
            exact applyDecrements_preserves o.items db.products (hq o homem) hps
  · simpa [webhookApply, ht] using hps

lemma persistNum_ne_nan : ∀ v : JNum, persistNum v ≠ JNum.nan := by
  intro v; cases v <;> simp [persistNum]

lemma persistDb_qtys_numeric (db : Db) :
    ∀ o ∈ (persistDb db).orders, ∀ it ∈ o.items, it.qty ≠ JNum.nan := by
  intro o ho it hit
  simp only [persistDb, List.mem_map] at ho
  rcases ho with ⟨o0, _, rfl⟩
  simp only [persistOrder, List.mem_map] at hit
  rcases hit with ⟨it0, _, rfl⟩
  exact persistNum_ne_nan it0.qty

lemma persistDb_products_ok (db : Db) (hps : ∀ p ∈ db.products, productOK p = true) :
    ∀ p ∈ (persistDb db).products, productOK p = true := by
  intro p hp
  simp only [persistDb, List.mem_map] at hp
  rcases hp with ⟨p0, hp0, rfl⟩
  have h := hps p0 hp0
  simp only [productOK, Bool.and_eq_true, decide_eq_true_eq] at h ⊢
  obtain ⟨hinv, hpc⟩ := h
  refine ⟨?_, hpc⟩
  cases hi : p0.inventory with
  | nan => rw [hi] at hinv; simp [isNonNegNumB] at hinv
  | num k =>
    rw [hi] at hinv
    simpa [persistNum, hi, isNonNegNumB] using hinv

/--
C6: every product's inventory is a non-negative number after any operation,
and every stored product's `priceCents` stays at or above the floor of 50.
The payment-confirmation handler runs on the store it re-reads via `readDb`
— the JSON round-trip of the previously written store, under which any `NaN`
quantity reads back as `null` and converts to `0` — and decrements each
ordered product's inventory by `Math.max(0, inventory − quantity)`, never
negative; product creation coerces a negative inventory to 0 (and rejects
`priceCents < 50`); product update coerces a non-finite or negative
inventory to 0 (and rejects `priceCents < 50`); creation and update also
preserve the invariant for every other stored product.
-/
theorem c6_inventory_nonneg_price_floor :
    (∀ (secret : String) (sigOk : Bool) (ev : StripeEvent) (now : String) (db : Db),
      (∀ p ∈ db.products, productOK p = true) →
      ∀ p ∈ (webhook secret sigOk ev now (persistDb db)).1.products, productOK p = true) ∧
    (∀ (db : Db) (body : CreateBody) (now fb : String) (db2 : Db) (pr : Product),
      createProduct db body now fb = (db2, .created pr) →
      (productOK pr = true ∧
        (∀ n : Int, body.inventory = JNum.num n → n < 0 → pr.inventory = JNum.num 0)) ∧
      ((∀ p ∈ db.products, productOK p = true) → ∀ p ∈ db2.products, productOK p = true)) ∧
    (∀ (db : Db) (pid : String) (body : UpdateBody) (now : String) (db2 : Db) (pr : Product),
      updateProduct db pid body now = (db2, .updated pr) →
      (productOK pr = true ∧
        (body.inventory = some JNum.nan → pr.inventory = JNum.num 0) ∧
        (∀ n : Int, body.inventory = some (JNum.num n) → n < 0 → pr.inventory = JNum.num 0)) ∧
      ((∀ p ∈ db.products, productOK p = true) → ∀ p ∈ db2.products, productOK p = true)) := by
  refine ⟨?_, ?_, ?_⟩
  · intro secret sigOk ev now db hps
    have hq := persistDb_qtys_numeric db
    have hps2 := persistDb_products_ok db hps
    by_cases hs : secret = ""
    · simpa [webhook, hs] using hps2
    · cases sigOk with
      | false => simpa [webhook, hs] using hps2
      | true =>
        simpa [webhook, hs] using webhookApply_products_ok ev now (persistDb db) hq hps2
  · intro db body now fb db2 pr h
    by_cases hname : jsTrim body.name = ""
    · simp [createProduct, hname] at h
    · by_cases hdup : db.products.any (fun p => p.id = createdId body fb) = true
      · simp [createProduct, hname, hdup] at h
      · by_cases hpc : moneyCents body.priceCents < (50 : Int)
        · simp [createProduct, hname, hdup, hpc] at h
        · by_cases hneg : createInvRaw body < 0
          · simp [createProduct, hname, hdup, hpc, hneg] at h
            obtain ⟨h1, h2⟩ := h
            have hok : productOK pr = true := by
              rw [← h2]
              simp [productOK, isNonNegNumB]
              omega
            refine ⟨⟨hok, ?_⟩, ?_⟩
            · intro n _ _
              rw [← h2]
            · intro hall p hp
              rw [← h1] at hp
              simp only [List.mem_append, List.mem_singleton] at hp
              rcases hp with hp | rfl
              · exact hall p hp
              · rw [h2]; exact hok
          · simp [createProduct, hname, hdup, hpc, hneg] at h
            obtain ⟨h1, h2⟩ := h
            have hok : productOK pr = true := by
              rw [← h2]
              simp [productOK, isNonNegNumB]
              omega
            refine ⟨⟨hok, ?_⟩, ?_⟩
            · intro n hn hlt
              exfalso
              apply hneg
              simp [createInvRaw, hn]
              omega
            · intro hall p hp
              rw [← h1] at hp
              simp only [List.mem_append, List.mem_singleton] at hp
              rcases hp with hp | rfl
              · exact hall p hp
              · rw [h2]; exact hok
  · intro db pid body now db2 pr h
    cases hfind : db.products.find? (fun p => p.id = pid) with
    | none => simp [updateProduct, hfind] at h
    | some p0 =>
      by_cases hname : (applyUpdates p0 body).name = ""
      · simp [updateProduct, hfind, hname] at h
      · by_cases hpc : (applyUpdates p0 body).priceCents < (50 : Int)
        · simp [updateProduct, hfind, hname, hpc] at h
        · simp [updateProduct, hfind, hname, hpc] at h
          obtain ⟨h1, h2⟩ := h
          have hok : productOK pr = true := by
            rw [← h2]
            simp only [productOK, Bool.and_eq_true, decide_eq_true_eq]
            refine ⟨coerceInv_nonneg (applyUpdates p0 body), ?_⟩
            show (50 : Int) ≤ (coerceInv (applyUpdates p0 body)).priceCents
            rw [coerceInv_priceCents]
            omega
          refine ⟨⟨hok, ?_, ?_⟩, ?_⟩
          · intro hnan
            rw [← h2]
            show (coerceInv (applyUpdates p0 body)).inventory = JNum.num 0
            have h5 : (applyUpdates p0 body).inventory = JNum.nan :=
              applyUpdates_inventory p0 body _ hnan
            simp [coerceInv, h5]
          · intro n hn hlt
            rw [← h2]
            show (coerceInv (applyUpdates p0 body)).inventory = JNum.num 0
            have h5 : (applyUpdates p0 body).inventory = JNum.num n :=
              applyUpdates_inventory p0 body _ hn
            simp [coerceInv, h5, hlt]
          · intro hall p hp
            rw [← h1] at hp
            exact forall_mem_updateFirst _ _ db.products hall
              (fun x _ => by rw [h2]; exact hok) p hp

/-- A written store holding the pending order a `qty: "abc"` checkout
produced (item quantity `NaN` in the writing request's memory). -/
def ord6n : Order :=
  { id := "u6", status := "pending", createdAt := "t6", paidAt := none,
    items := [{ productId := "shoe-1", name := "Shoe", priceCents := 2000, qty := JNum.nan }],
    subtotalCents := JNum.nan, customerEmail := "", customerName := "",
    customerPhone := "", shipping := none, stripeSessionId := "" }

def db6n : Db := { products := [pS], orders := [ord6n] }

def ev6n : StripeEvent :=
  { type := "checkout.session.completed", orderId := some "u6", sessionId := "cs6",
    email := none, custName := none, phone := none, shipping := none }

theorem c6_witness : productOK pS = true :=
  c6_inventory_nonneg_price_floor.1 "whsec" true ev6n "t6b" db6n (by decide) pS (by decide)

/-! ## C8 -/

/--
C8: (i) whenever `requireAdmin` denies — unknown bearer token, or a token
whose `expiresAt` has passed — an admin endpoint leaves the store exactly as
it was: the guarded handler body never runs; (ii) `requireAdmin` lets a
request through exactly when the presented bearer token is in the credential
map and `now ≤ expiresAt`; (iii) an expired token is removed from the map
and denied with `Token expired`; (iv) login issues a credential exactly when
the submitted password equals the configured admin password, and that
credential expires `1000*60*60*12` ms (12 hours) after issuance.
-/
theorem c8_admin_auth_guards_mutations :
    (∀ {α : Type} (toks : TokenMap) (auth : String) (now : Int)
        (handler : Db → Db × α) (db : Db) (toks2 : TokenMap) (msg : String),
      requireAdmin toks auth now = (toks2, .denied msg) →
      adminEndpoint toks auth now handler db = (toks2, db, none)) ∧
    (∀ (toks : TokenMap) (auth : String) (now : Int),
      (requireAdmin toks auth now).2 = .allowed ↔
        ∃ info, mapGet toks (parseBearer auth) = some info ∧ now ≤ info.expiresAt) ∧
    (∀ (toks : TokenMap) (auth : String) (now : Int) (info : TokenInfo),
      mapGet toks (parseBearer auth) = some info → info.expiresAt < now →
      requireAdmin toks auth now =
        (mapDelete toks (parseBearer auth), .denied "Token expired")) ∧
    (∀ (toks : TokenMap) (password adminPassword : String) (now : Int) (newToken : String),
      (password ≠ adminPassword →
        adminLogin toks password adminPassword now newToken = (toks, .wrongPassword)) ∧
      (password = adminPassword →
        adminLogin toks password adminPassword now newToken =
          (mapSet toks newToken { createdAt := now, expiresAt := now + tokenLifetimeMs },
           .token newToken))) := by
  refine ⟨?_, ?_, ?_, ?_⟩
  · intro α toks auth now handler db toks2 msg h
    simp [adminEndpoint, h]
  · intro toks auth now
    constructor
    · intro h
      cases hget : mapGet toks (parseBearer auth) with
      | none => simp [requireAdmin, hget] at h
      | some info =>
        by_cases hexp : info.expiresAt < now
        · simp [requireAdmin, hget, hexp] at h
        · exact ⟨info, rfl, by omega⟩
    · rintro ⟨info, hget, hle⟩
      have hexp : ¬ info.expiresAt < now := by omega
      simp [requireAdmin, hget, hexp]
  · intro toks auth now info hget hexp
    simp [requireAdmin, hget, hexp]
  · intro toks password adminPassword now newToken
    constructor
    · intro hne; simp [adminLogin, hne]
    · intro heq; simp [adminLogin, heq]

def toksW : TokenMap := [("tok1", { createdAt := 0, expiresAt := tokenLifetimeMs })]

theorem c8_witness :
    adminEndpoint toksW "Bearer tok2" 50 (fun db => (deleteProduct db "shoe-1")) dbS =
      (toksW, dbS, none) :=
  c8_admin_auth_guards_mutations.1 toksW "Bearer tok2" 50
    (fun db => (deleteProduct db "shoe-1")) dbS toksW "Not authorized" (by decide)

/-! ## C2 -/

def ordP1 : Order :=
  { id := "o1", status := "pending", createdAt := "t0", paidAt := none,
    items := [{ productId := "shoe-1", name := "Shoe", priceCents := 2000, qty := .num 1 }],
    subtotalCents := .num 2000, customerEmail := "", customerName := "",
    customerPhone := "", shipping := none, stripeSessionId := "" }

def ordP2 : Order := { ordP1 with id := "o2" }

def dbC2 : Db := { products := [pS], orders := [ordP1, ordP2] }

def evO1 : StripeEvent :=
  { type := "checkout.session.completed", orderId := some "o1", sessionId := "csA",
    email := none, custName := none, phone := none, shipping := none }

def evO2 : StripeEvent := { evO1 with orderId := some "o2", sessionId := "csB" }

/--
C2: the claimed atomicity does not hold in the code.  `readDb` is not routed
through `writeLock` (only the `writeFile`/`rename` inside `writeDb` is), so
under the event-loop schedule read_A, read_B, write_A, write_B two
concurrent deliveries of the same confirmation BOTH snapshot the order in
status `pending` and both proceed into the decrement branch; and for two
concurrent deliveries targeting different orders of the same store, the
second write — computed from its stale snapshot — wholly overwrites the
first handler's committed update: order `o1`'s paid transition is lost
(back to `pending`) while a serialized schedule pays both orders.
-/
theorem c2_check_then_update_not_atomic :
    (runSchedule evO1 evO1 "tA" "tB" dbC2 [.A, .B]).phaseA = .readDone dbC2 ∧
    (runSchedule evO1 evO1 "tA" "tB" dbC2 [.A, .B]).phaseB = .readDone dbC2 ∧
    orderStatus dbC2 "o1" = some "pending" ∧
    (webhookApply evO1 "tA" dbC2).2 = true ∧
    (webhookApply evO1 "tB" dbC2).2 = true ∧
    (runSchedule evO1 evO2 "tA" "tB" dbC2 [.A, .B, .A, .B]).shared =
      (webhookApply evO2 "tB" dbC2).1 ∧
    orderStatus (runSchedule evO1 evO2 "tA" "tB" dbC2 [.A, .B, .A, .B]).shared "o1" =
      some "pending" ∧
    orderStatus (runSchedule evO1 evO2 "tA" "tB" dbC2 [.A, .B, .A, .B]).shared "o2" =
      some "paid" ∧
    orderStatus (runSchedule evO1 evO2 "tA" "tB" dbC2 [.A, .A, .B, .B]).shared "o1" =
      some "paid" ∧
    orderStatus (runSchedule evO1 evO2 "tA" "tB" dbC2 [.A, .A, .B, .B]).shared "o2" =
      some "paid" := by
  decide

end RStore
